import Mathlib

/-!
Shallow embedding of `src/main.py` of the `ipinfo-bot` repository, together
with proofs settling the frozen claims about its specification.

Modelling conventions:

* A lookup result (the dictionary produced by `resp.json()` in
  `fetch_ipinfo`) is a flat mapping from string keys to JSON values.  Per
  the provider schema documented in the spec (§6), values are strings,
  booleans, or null; `JVal` covers exactly those and `JObj` is the mapping,
  as an insertion-ordered association list (a Python `dict` preserves
  insertion order and has no duplicate keys; the embedding does not need
  the no-duplicate invariant anywhere).
* Python truthiness (`if val:`) on such values is `truthy`; `str(val)` is
  `pyStr`.
* A `discord.Embed` is modelled by its title, its ordered field list and
  its footer text (the only parts the program sets or measures);
  `embed.add_field` appends, and `len(embed)` (discord.py `Embed.__len__`)
  is `embedLen` = length of title + Σ (field name + field value) + footer.
* `json.dumps(data, indent=2, ensure_ascii=False)` is `dumps`, transcribing
  the CPython `json` encoder for flat objects: entries joined by ",\n  "
  inside braces, `": "` between key and value, and string escaping exactly
  as `py_encode_basestring` (short escapes for `\"` `\\` `\n` `\r` `\t`
  `\b` `\f`, and a lowercase `\u00XX` escape for the other control
  characters below 0x20; all other characters verbatim).
* `loads` is a standard (whitespace-tolerant) JSON parser for such flat
  objects; it appears only on the specification side of the round-trip
  property of claim C4.
* Python's `loc.split(",")` is `pySplitComma` (all splits, empty parts
  kept), written directly because it must evaluate inside the kernel.
-/

inductive JVal where
  | str (s : String)
  | bool (b : Bool)
  | null
deriving DecidableEq

abbrev JObj := List (String × JVal)

/-- Python `dict.get(k)`: `some` of the value stored at the first matching
key, `none` when the key is absent. -/
def dictGet (d : JObj) (k : String) : Option JVal :=
  match d with
  | [] => none
  | kv :: rest => if kv.1 = k then some kv.2 else dictGet rest k

/-- Python truthiness of a JSON value: empty strings, `False` and `None`
are falsy, everything else is truthy. -/
def truthy : JVal → Bool
  | .str s => s != ""
  | .bool b => b
  | .null => false

/-- Truthiness of an optional value (`dict.get` may return `None`). -/
def truthyOpt : Option JVal → Bool
  | some v => truthy v
  | none => false

/-- Python `str(val)` on a JSON value. -/
def pyStr : JVal → String
  | .str s => s
  | .bool true => "True"
  | .bool false => "False"
  | .null => "None"

/-- Python `str(val)` where `val` may be `None`. -/
def pyStrOpt : Option JVal → String
  | some v => pyStr v
  | none => "None"

/-- Python `s.split(",")` on the character list: split at every comma,
keeping empty parts. -/
def splitCommaChars : List Char → List (List Char)
  | [] => [[]]
  | c :: rest =>
    if c = ',' then [] :: splitCommaChars rest
    else
      match splitCommaChars rest with
      | g :: gs => (c :: g) :: gs
      | [] => [[c]]

/-- Python `s.split(",")`. -/
def pySplitComma (s : String) : List String :=
  (splitCommaChars s.data).map (fun l => String.mk l)

/-- One field of a `discord.Embed` (name, value, inline flag). -/
structure EmbedField where
  name : String
  value : String
  inl : Bool
deriving DecidableEq

/-- The parts of a `discord.Embed` that `main.py` sets or measures. -/
structure Embed where
  title : String
  fields : List EmbedField
  footerText : Option String
deriving DecidableEq

/-- `embed.add_field(name=..., value=..., inline=...)`: appends a field. -/
def addField (e : Embed) (name value : String) (inl : Bool) : Embed :=
  { e with fields := e.fields ++ [⟨name, value, inl⟩] }

/-- discord.py `Embed.__len__`: total length of title, every field's name
and value, and the footer text (description and author are never set by
`main.py`). -/
def embedLen (e : Embed) : Nat :=
  e.title.length + (e.fields.map (fun f => f.name.length + f.value.length)).sum +
    (match e.footerText with
     | some t => t.length
     | none => 0)

/-- Lowercase hexadecimal digit, as produced by CPython's `'\\u%04x'`
formatting (only used for digit values below 16). -/
def hexDig (n : Nat) : Char :=
  if n < 10 then Char.ofNat (48 + n) else Char.ofNat (87 + n)

/-- CPython `json` escaping of one character with `ensure_ascii=False`:
short escapes for quote, backslash and the five named control characters,
`\u00XX` for the remaining control characters below 0x20, and every other
character verbatim. -/
def escChar (c : Char) : List Char :=
  if c = '"' then ['\\', '"']
  else if c = '\\' then ['\\', '\\']
  else if c = '\n' then ['\\', 'n']
  else if c = '\r' then ['\\', 'r']
  else if c = '\t' then ['\\', 't']
  else if c = '\x08' then ['\\', 'b']
  else if c = '\x0c' then ['\\', 'f']
  else if c.toNat < 32 then ['\\', 'u', '0', '0', hexDig (c.toNat / 16), hexDig (c.toNat % 16)]
  else [c]

/-- CPython `json` escaping of a whole string body. -/
def escString (s : List Char) : List Char := s.flatMap escChar

/-- Serialization of one JSON value (`json.dumps` with
`ensure_ascii=False`). -/
def dumpVal : JVal → List Char
  | .str s => '"' :: (escString s.data ++ ['"'])
  | .bool true => ['t', 'r', 'u', 'e']
  | .bool false => ['f', 'a', 'l', 's', 'e']
  | .null => ['n', 'u', 'l', 'l']

/-- Serialization of one `"key": value` object entry. -/
def dumpEntry (kv : String × JVal) : List Char :=
  '"' :: (escString kv.1.data ++ ('"' :: ':' :: ' ' :: dumpVal kv.2))

/-- Entries of a non-empty object under `indent=2`: joined by `",\n  "`,
closed by `"\n\x7d"`. -/
def dumpTail : JObj → List Char
  | [] => '\n' :: ['\x7d']
  | kv :: rest =>
    dumpEntry kv ++
      (match rest with
       | [] => '\n' :: ['\x7d']
       | _ => ',' :: '\n' :: ' ' :: ' ' :: dumpTail rest)

/-- `json.dumps(data, indent=2, ensure_ascii=False)` for a flat object. -/
def dumps (d : JObj) : String :=
  match d with
  | [] => "\x7b\x7d"
  | _ => String.mk ('\x7b' :: '\n' :: ' ' :: ' ' :: dumpTail d)

/-- The two substituted map links of the presenter's map block
(OpenStreetMap centred at zoom 8, and a Google Maps query). -/
def mapFieldValue (lat lon : String) : String :=
  "[OpenStreetMap](https://www.openstreetmap.org/?mlat=" ++ lat ++ "&mlon=" ++ lon ++
    "#map=8/" ++ lat ++ "/" ++ lon ++ ") | [Google Maps](https://www.google.com/maps?q=" ++
    lat ++ "," ++ lon ++ ")"

/-- The literal `fields` list of pairs built at the start of
`make_embed_from_data`. -/
def fieldPairs (data : JObj) : List (String × Option JVal) :=
  [("IP", dictGet data "ip"),
   ("Hostname", dictGet data "hostname"),
   ("City", dictGet data "city"),
   ("Region", dictGet data "region"),
   ("Country", dictGet data "country"),
   ("Location (lat,long)", dictGet data "loc"),
   ("Organization", dictGet data "org"),
   ("Postal", dictGet data "postal"),
   ("Timezone", dictGet data "timezone")]

/-- `make_embed_from_data(ip_or_host, data)` from `src/main.py`:
the display fields (one per truthy field, in the fixed order), then the
map block (produced when `loc` is a string splitting on `,` into exactly
two parts; every exception from the unpacking or the `.split` attribute
access is swallowed), then the raw JSON block (only when the indented
serialization is shorter than 1024 characters), then the footer. -/
def make_embed_from_data (ip_or_host : String) (data : JObj) : Embed :=
  let e0 : Embed := { title := "IP info — " ++ ip_or_host, fields := [], footerText := none }
  let e1 := (fieldPairs data).foldl
    (fun e p => if truthyOpt p.2 then addField e p.1 (pyStrOpt p.2) true else e) e0
  let e2 :=
    match dictGet data "loc" with
    | some v =>
      if truthy v then
        match v with
        | .str s =>
          match pySplitComma s with
          | [lat, lon] => addField e1 "Map" (mapFieldValue lat lon) false
          | _ => e1
        | _ => e1
      else e1
    | none => e1
  let pretty := dumps data
  let e3 :=
    if pretty.length < 1024 then
      addField e2 "Raw JSON" ("```json\n" ++ pretty ++ "\n```") false
    else e2
  { e3 with footerText := some "Data provided by ipinfo.io" }

/-- Whitespace characters skipped by a JSON parser. -/
def isWsChar (c : Char) : Bool := c = ' ' || c = '\n' || c = '\t' || c = '\r'

/-- Skip leading JSON whitespace. -/
def skipWs : List Char → List Char
  | [] => []
  | c :: rest => if isWsChar c then skipWs rest else c :: rest

/-- Value of one hexadecimal digit. -/
def hexVal (c : Char) : Option Nat :=
  if '0' ≤ c ∧ c ≤ '9' then some (c.toNat - 48)
  else if 'a' ≤ c ∧ c ≤ 'f' then some (c.toNat - 87)
  else if 'A' ≤ c ∧ c ≤ 'F' then some (c.toNat - 55)
  else none

/-- Parse the body of a JSON string literal (the opening quote already
consumed) up to and including the closing quote, un-escaping as it goes.
Returns the decoded characters and the rest of the input. -/
def parseStrBody : List Char → Option (List Char × List Char)
  | [] => none
  | c :: rest =>
    if c = '"' then some ([], rest)
    else if c = '\\' then
      match rest with
      | [] => none
      | e :: rest2 =>
        if e = '"' then (parseStrBody rest2).map (fun p => ('"' :: p.1, p.2))
        else if e = '\\' then (parseStrBody rest2).map (fun p => ('\\' :: p.1, p.2))
        else if e = 'n' then (parseStrBody rest2).map (fun p => ('\n' :: p.1, p.2))
        else if e = 'r' then (parseStrBody rest2).map (fun p => ('\r' :: p.1, p.2))
        else if e = 't' then (parseStrBody rest2).map (fun p => ('\t' :: p.1, p.2))
        else if e = 'b' then (parseStrBody rest2).map (fun p => ('\x08' :: p.1, p.2))
        else if e = 'f' then (parseStrBody rest2).map (fun p => ('\x0c' :: p.1, p.2))
        else if e = 'u' then
          match rest2 with
          | h1 :: h2 :: h3 :: h4 :: rest3 =>
            match hexVal h1, hexVal h2, hexVal h3, hexVal h4 with
            | some a, some b, some c3, some d =>
              (parseStrBody rest3).map
                (fun p => (Char.ofNat (a * 4096 + b * 256 + c3 * 16 + d) :: p.1, p.2))
            | _, _, _, _ => none
          | _ => none
        else none
    else (parseStrBody rest).map (fun p => (c :: p.1, p.2))

/-- Parse a JSON string literal, opening quote included. -/
def parseJString : List Char → Option (List Char × List Char)
  | [] => none
  | c :: rest => if c = '"' then parseStrBody rest else none

/-- Parse one JSON value of the flat model (string, boolean or null). -/
def parseJVal : List Char → Option (JVal × List Char)
  | [] => none
  | c :: rest =>
    if c = '"' then (parseStrBody rest).map (fun p => (JVal.str (String.mk p.1), p.2))
    else if c = 't' then
      match rest with
      | 'r' :: 'u' :: 'e' :: r => some (JVal.bool true, r)
      | _ => none
    else if c = 'f' then
      match rest with
      | 'a' :: 'l' :: 's' :: 'e' :: r => some (JVal.bool false, r)
      | _ => none
    else if c = 'n' then
      match rest with
      | 'u' :: 'l' :: 'l' :: r => some (JVal.null, r)
      | _ => none
    else none

/-- Parse a comma-separated list of `"key": value` entries, positioned at
the start of a key, up to and including the closing brace.  `fuel` bounds
the number of entries; the top-level parser passes the input length, which
is always enough. -/
def parseEntryList : Nat → List Char → Option (JObj × List Char)
  | 0, _ => none
  | Nat.succ fuel, input =>
    match parseJString input with
    | none => none
    | some (k, r1) =>
      match skipWs r1 with
      | [] => none
      | c :: r2 =>
        if c = ':' then
          match parseJVal (skipWs r2) with
          | none => none
          | some (v, r3) =>
            match skipWs r3 with
            | [] => none
            | c2 :: r4 =>
              if c2 = ',' then
                (parseEntryList fuel (skipWs r4)).map
                  (fun p => ((String.mk k, v) :: p.1, p.2))
              else if c2 = '\x7d' then some ([(String.mk k, v)], r4)
              else none
        else none

/-- Parse a flat JSON object, leading whitespace allowed. -/
def parseJObj (fuel : Nat) (input : List Char) : Option (JObj × List Char) :=
  match skipWs input with
  | [] => none
  | c :: r1 =>
    if c = '\x7b' then
      match skipWs r1 with
      | [] => none
      | c2 :: r2 =>
        if c2 = '\x7d' then some ([], r2)
        else parseEntryList fuel (c2 :: r2)
    else none

/-- `json.loads` restricted to the flat-object model: parse one object and
require only whitespace after it. -/
def loads (s : String) : Option JObj :=
  match parseJObj (s.data.length + 1) s.data with
  | some (d, rest) => if skipWs rest = [] then some d else none
  | none => none

/-- The dictionary comprehension dropping the key literally named `"raw"`
in `ipinfo_cmd`'s oversize branch. -/
def dropRaw (d : JObj) : JObj := d.filter (fun kv => kv.1 != "raw")

/-- The embed `ipinfo_cmd` finally sends: the rendered card, re-rendered
exactly once from the result with the key `"raw"` removed when the card
length exceeds 6000. -/
def finalEmbed (target : String) (d : JObj) : Embed :=
  let e := make_embed_from_data target d
  if 6000 < embedLen e then make_embed_from_data target (dropRaw d) else e

/-!
Command dispatcher (`ipinfo_cmd`), exception taxonomy and observable
actions.

The exception classification encodes the relevant library facts:
`aiohttp.ClientConnectorError` (DNS failure) and the connection-reset /
server-disconnect errors derive from `aiohttp.ClientError`; expiry of the
total `aiohttp.ClientTimeout` raises `asyncio.TimeoutError`, which does
NOT derive from `aiohttp.ClientError` (per the aiohttp documentation of
`ClientTimeout`), so it falls through to the bare `except Exception`
branch of `ipinfo_cmd`; the `ValueError` raised by `fetch_ipinfo` itself
on a non-200 status is likewise not an `aiohttp.ClientError`.
-/

inductive FetchExc where
  | clientConnectorError (detail : String)
  | connectionResetError (detail : String)
  | timeoutError (detail : String)
  | valueError (detail : String)
  | otherError (detail : String)
deriving DecidableEq

/-- `str(e)` of the raised exception. -/
def excDetail : FetchExc → String
  | .clientConnectorError d => d
  | .connectionResetError d => d
  | .timeoutError d => d
  | .valueError d => d
  | .otherError d => d

/-- Whether `except aiohttp.ClientError` catches the exception. -/
def isAiohttpClientError : FetchExc → Bool
  | .clientConnectorError _ => true
  | .connectionResetError _ => true
  | _ => false

/-- Whether `except ValueError` catches the exception (after the
`ClientError` clause failed to). -/
def isValueErrorExc : FetchExc → Bool
  | .valueError _ => true
  | _ => false

/-- Modelled from the spec: the spec's "network-level failure" class (§4.2:
DNS, connection reset, timeout). -/
def isNetworkLevel : FetchExc → Bool
  | .clientConnectorError _ => true
  | .connectionResetError _ => true
  | .timeoutError _ => true
  | _ => false

def networkErrMsg (d : String) : String := "Error de red al consultar ipinfo: " ++ d

def datosErrMsg (d : String) : String := "Error al obtener datos: " ++ d

def unexpectedErrMsg (d : String) : String := "Error inesperado: " ++ d

/-- The reply chosen by the `except` clauses of `ipinfo_cmd`, in source
order: `aiohttp.ClientError`, then `ValueError`, then `Exception`. -/
def excReply (e : FetchExc) : String :=
  if isAiohttpClientError e then networkErrMsg (excDetail e)
  else if isValueErrorExc e then datosErrMsg (excDetail e)
  else unexpectedErrMsg (excDetail e)

def usageMsg : String := "Debes indicar una IP o hostname. Ejemplo: `!ipinfo 8.8.8.8`"

def bogonMsg : String := "La IP consultada es un bogon/reservada y no tiene información pública."

/-- Externally observable actions of one `ipinfo` invocation, in order:
the typing indicator, the single outbound `fetch_ipinfo` call, and the
reply (`ctx.send` of text or of an embed — the latter is the only way the
presenter's output is ever used). -/
inductive BotAction where
  | typing
  | fetchCall (target : String)
  | sendText (msg : String)
  | sendEmbed (e : Embed)
deriving DecidableEq

/-- The body of `ipinfo_cmd(ctx, target)` as a trace of actions, given the
outcome the network produces for the single `fetch_ipinfo` call:
trigger typing; empty target → usage hint and stop (no remote call);
otherwise one fetch, then either the reply chosen by the `except` chain,
the bogon notice, the provider-error notice, or the rendered card. -/
def ipinfoCmdBody (target : String) (outcome : Except FetchExc JObj) : List BotAction :=
  BotAction.typing ::
    (if target = "" then [BotAction.sendText usageMsg]
     else
       BotAction.fetchCall target ::
         (match outcome with
          | .error e => [BotAction.sendText (excReply e)]
          | .ok data =>
            if truthyOpt (dictGet data "bogon") then [BotAction.sendText bogonMsg]
            else if truthyOpt (dictGet data "error") then
              [BotAction.sendText ("ipinfo error: " ++ pyStrOpt (dictGet data "error"))]
            else [BotAction.sendEmbed (finalEmbed target data)]))

/-- The platform command layer for `ipinfo`'s one required positional
parameter `target: str`: when no argument is supplied, discord.py raises
`MissingRequiredArgument` during argument parsing, before the callback
body runs — and `main.py` registers no command error handler, so nothing
is sent back; otherwise the first word is bound to `target` and the body
runs. -/
def invokeIpinfo (args : List String) (outcome : Except FetchExc JObj) : List BotAction :=
  match args with
  | [] => []
  | t :: _ => ipinfoCmdBody t outcome

/-!
Config loader (module top level of `main.py`, lines 18–54).
-/

/-- The values `config.get("BOT_CONFIG", ...).get(KEY)` can yield for the
three recognized keys; an absent or unparsable config file yields `none`
for all of them. -/
structure YamlConfig where
  tokenVal : Option String
  pfxVal : Option String
  ipinfoVal : Option String

/-- The environment variables `main.py` reads. -/
structure EnvVars where
  botToken : Option String
  discordToken : Option String
  botPfx : Option String
  ipinfoToken : Option String
  ipinfoIoToken : Option String

/-- Python `a or b` on optional strings: `b` unless `a` is truthy (a
non-empty string). -/
def strTruthy : Option String → Bool
  | some s => s != ""
  | none => false

def pyOr (a b : Option String) : Option String := if strTruthy a then a else b

/-- `bot_token` as resolved at lines 28–32. -/
def bot_token (cfg : YamlConfig) (env : EnvVars) : Option String :=
  pyOr cfg.tokenVal (pyOr env.botToken env.discordToken)

/-- Modelled from the spec: "resolved in the order: config-file value,
then BOT_TOKEN, then DISCORD_TOKEN" — the first truthy candidate of the
ordered list, if any. -/
def firstTruthy : List (Option String) → Option String
  | [] => none
  | o :: rest => if strTruthy o then o else firstTruthy rest

inductive StartupResult where
  | exited (code : Nat)
  | running (tok : String) (pfx : String) (ipTok : Option String)
      (registeredCmds : List String)
deriving DecidableEq

/-- Module start-up: resolve the three configuration values, then
`raise SystemExit(1)` when the bot token is falsy (nothing after line 46
runs: no bot object, no command registration); otherwise the process
continues with the commands `help` and `ipinfo` registered. -/
def startupModel (cfg : YamlConfig) (env : EnvVars) : StartupResult :=
  let tok := bot_token cfg env
  let p := pyOr cfg.pfxVal (pyOr env.botPfx (some "!"))
  let itok := pyOr cfg.ipinfoVal (pyOr env.ipinfoToken env.ipinfoIoToken)
  if strTruthy tok then
    StartupResult.running (tok.getD "") (p.getD "") itok ["help", "ipinfo"]
  else StartupResult.exited 1

/-!
Cooldown (`@commands.cooldown(1, 3, commands.BucketType.user)`).

Transcription of discord.py's `Cooldown` with `rate = 1`, `per = 3.0`:
`update_rate_limit(current)` refreshes the token count when the window has
expired (`current > window + per`), restarts the window when the bucket is
full, and either reports the remaining retry-after (rate limited, the
command callback is not run and `CommandOnCooldown` is handed to the
platform's cooldown-notice mechanism) or consumes a token and lets the
callback run.  `CooldownMapping` with `BucketType.user` keeps one
independent `Cooldown` per invoking user id, created on first use with a
full bucket (`tokens = rate = 1`, `window = 0`).  Timestamps are modelled
as rationals.
-/

structure CooldownState where
  tokens : Nat
  window : Rat
deriving DecidableEq

def freshCooldown : CooldownState := ⟨1, 0⟩

/-- `Cooldown.update_rate_limit(current)` with `rate = 1`, `per = 3`:
`some retryAfter` means rate limited. -/
def cooldownUpdate (s : CooldownState) (t : Rat) : Option Rat × CooldownState :=
  let tks := if s.window + 3 < t then 1 else s.tokens
  let win := if tks = 1 then t else s.window
  if tks = 0 then (some (3 - (t - win)), ⟨tks, win⟩)
  else (none, ⟨tks - 1, win⟩)

/-- The per-user bucket cache of the command's `CooldownMapping`. -/
def CooldownCache := Nat → CooldownState

def emptyCache : CooldownCache := fun _ => freshCooldown

/-- One invocation by user `u` at time `t`: update `u`'s bucket, leave all
other buckets untouched. -/
def cacheUpdate (c : CooldownCache) (u : Nat) (t : Rat) : Option Rat × CooldownCache :=
  let r := cooldownUpdate (c u) t
  (r.1, fun v => if v = u then r.2 else c v)

/-- Outcome of one `ipinfo` invocation at the cooldown gate: either the
callback runs (and makes its remote call), or `CommandOnCooldown` with the
given retry-after is raised to the platform's cooldown notice mechanism
and the remote call is suppressed. -/
inductive InvokeResult where
  | fetched
  | cooldownNotice (retryAfter : Rat)
deriving DecidableEq

/-- Run a sequence of `(user, time)` invocations through the cooldown
gate. -/
def runCooldownSeq : CooldownCache → List (Nat × Rat) → List InvokeResult
  | _, [] => []
  | c, (u, t) :: rest =>
    let r := cacheUpdate c u t
    (match r.1 with
     | none => InvokeResult.fetched
     | some ra => InvokeResult.cooldownNotice ra) :: runCooldownSeq r.2 rest

/-!
Specification-side observers of a rendered card, and the decomposition of
`make_embed_from_data` into its three blocks.
-/

/-- The fixed ordered list of display labels (in source order). -/
def displayLabels : List String :=
  ["IP", "Hostname", "City", "Region", "Country", "Location (lat,long)",
   "Organization", "Postal", "Timezone"]

/-- The display entry the field loop emits for one `(label, value)` pair:
present exactly when the value is truthy. -/
def displayEntry (p : String × Option JVal) : Option EmbedField :=
  if truthyOpt p.2 then some ⟨p.1, pyStrOpt p.2, true⟩ else none

/-- The display entries of the card. -/
def displayFields (d : JObj) : List EmbedField := (fieldPairs d).filterMap displayEntry

/-- The map block of the card: one field exactly when `loc` holds a string
splitting on `,` into exactly two parts. -/
def mapBlockFields (d : JObj) : List EmbedField :=
  match dictGet d "loc" with
  | some (JVal.str s) =>
    match pySplitComma s with
    | [lat, lon] => [⟨"Map", mapFieldValue lat lon, false⟩]
    | _ => []
  | _ => []

/-- The raw JSON block of the card: one field exactly when the indented
serialization is under 1024 characters. -/
def rawBlockFields (d : JObj) : List EmbedField :=
  if (dumps d).length < 1024 then
    [⟨"Raw JSON", "```json\n" ++ dumps d ++ "\n```", false⟩]
  else []

/-- The fields of the card whose name is one of the nine display labels. -/
def displayOnly (e : Embed) : List EmbedField :=
  e.fields.filter (fun f => decide (f.name ∈ displayLabels))

/-- The fields of the card named `"Map"`. -/
def mapFields (e : Embed) : List EmbedField :=
  e.fields.filter (fun f => f.name == "Map")

/-- The fields of the card named `"Raw JSON"`. -/
def rawJsonFields (e : Embed) : List EmbedField :=
  e.fields.filter (fun f => f.name == "Raw JSON")

/-- The fixed `(label, result key)` rows of the field table, in source
order. -/
def fieldSpecs : List (String × String) :=
  [("IP", "ip"), ("Hostname", "hostname"), ("City", "city"), ("Region", "region"),
   ("Country", "country"), ("Location (lat,long)", "loc"), ("Organization", "org"),
   ("Postal", "postal"), ("Timezone", "timezone")]

/-- Modelled from the spec: a "numeric component" of the combined
coordinate field — at least one digit, and nothing but digits, an optional
leading minus sign and at most one decimal point (the spec's examples are
"40.7" and "-74.0"). -/
def isNumericString (s : String) : Bool :=
  let body := match s.data with
    | '-' :: rest => rest
    | l => l
  body.any Char.isDigit && body.all (fun c => c.isDigit || c == '.') &&
    decide ((body.filter (fun c => c == '.')).length ≤ 1)

/-!
Concrete inputs for the witnesses of the claims whose theorems carry
hypotheses.
-/

def exSmall : JObj := [("ip", JVal.str "8.8.8.8"), ("city", JVal.str "Mountain View")]

def longD : JObj := [("hostname", JVal.str (String.mk (List.replicate 1100 'b')))]

def bigOrg : String := String.mk (List.replicate 6100 'a')

def noCfg : YamlConfig := ⟨none, none, none⟩

def envAllUnset : EnvVars := ⟨none, none, none, none, none⟩

def cfgWithTok : YamlConfig := ⟨some "config-token", none, none⟩

theorem addField_fields (e : Embed) (n v : String) (b : Bool) :
    (addField e n v b).fields = e.fields ++ [⟨n, v, b⟩] := rfl

theorem foldl_addField_fields (l : List (String × Option JVal)) (e : Embed) :
    (l.foldl (fun e p => if truthyOpt p.2 then addField e p.1 (pyStrOpt p.2) true else e)
        e).fields = e.fields ++ l.filterMap displayEntry := by
  induction l generalizing e with
  | nil => simp
  | cons p rest ih =>
    simp only [List.foldl_cons, List.filterMap_cons]
    cases h : truthyOpt p.2
    · simp only [h, Bool.false_eq_true, if_false, displayEntry]
      rw [ih]
    · simp only [h, if_true, displayEntry]
      rw [ih, addField_fields]
      simp [h, List.append_assoc]

/-- Decomposition of the rendered card's field list into the display
entries, the map block and the raw JSON block, in that order. -/
theorem make_embed_fields (t : String) (d : JObj) :
    (make_embed_from_data t d).fields =
      displayFields d ++ (mapBlockFields d ++ rawBlockFields d) := by
  unfold make_embed_from_data
  cases hloc : dictGet d "loc" with
  | none =>
    simp only [mapBlockFields, hloc, rawBlockFields, displayFields]
    split <;> simp [addField_fields, foldl_addField_fields]
  | some v =>
    cases v with
    | str s =>
      by_cases hs : s = ""
      · subst hs
        simp only [mapBlockFields, hloc, rawBlockFields, displayFields, truthy]
        norm_num [pySplitComma, splitCommaChars]
        split <;> simp [addField_fields, foldl_addField_fields]
      · have ht : truthy (JVal.str s) = true := by
          simp [truthy, hs]
        simp only [mapBlockFields, hloc, rawBlockFields, displayFields, ht]
        cases hsp : pySplitComma s with
        | nil =>
          simp only [hsp]
          split <;> simp [addField_fields, foldl_addField_fields]
        | cons a l1 =>
          cases l1 with
          | nil =>
            simp only [hsp]
            split <;> simp [addField_fields, foldl_addField_fields]
          | cons b l2 =>
            cases l2 with
            | nil =>
              simp only [hsp]
              split <;>
                simp [addField_fields, foldl_addField_fields, List.append_assoc]
            | cons c l3 =>
              simp only [hsp]
              split <;> simp [addField_fields, foldl_addField_fields]
    | bool b =>
      cases b <;>
        · simp only [mapBlockFields, hloc, rawBlockFields, displayFields, truthy]
          split <;> simp [addField_fields, foldl_addField_fields]
    | null =>
      simp only [mapBlockFields, hloc, rawBlockFields, displayFields, truthy]
      split <;> simp [addField_fields, foldl_addField_fields]

theorem mem_displayFields_name {d : JObj} {f : EmbedField} (hf : f ∈ displayFields d) :
    f.name ∈ displayLabels := by
  simp only [displayFields, List.mem_filterMap] at hf
  obtain ⟨p, hp, he⟩ := hf
  have hname : f.name = p.1 := by
    simp only [displayEntry] at he
    split at he
    · cases he; rfl
    · cases he
  rw [hname]
  have hmap : (fieldPairs d).map Prod.fst = displayLabels := rfl
  rw [← hmap]
  exact List.mem_map_of_mem _ hp

theorem mem_mapBlockFields_name {d : JObj} {f : EmbedField} (hf : f ∈ mapBlockFields d) :
    f.name = "Map" := by
  unfold mapBlockFields at hf
  split at hf
  · split at hf
    · simp at hf
      rw [hf]
    · simp at hf
  · simp at hf

theorem mem_rawBlockFields_name {d : JObj} {f : EmbedField} (hf : f ∈ rawBlockFields d) :
    f.name = "Raw JSON" := by
  unfold rawBlockFields at hf
  split at hf
  · simp at hf
    rw [hf]
  · simp at hf

/-- The nine display labels, the map label and the raw JSON label never
collide, so filtering the card by label class isolates each block. -/
theorem displayOnly_make (t : String) (d : JObj) :
    displayOnly (make_embed_from_data t d) = displayFields d := by
  unfold displayOnly
  rw [make_embed_fields, List.filter_append, List.filter_append]
  rw [List.filter_eq_self.mpr, List.filter_eq_nil_iff.mpr, List.filter_eq_nil_iff.mpr,
    List.append_nil, List.append_nil]
  · intro f hf
    rw [mem_rawBlockFields_name hf]
    decide
  · intro f hf
    rw [mem_mapBlockFields_name hf]
    decide
  · intro f hf
    simp [mem_displayFields_name hf]

theorem mapFields_make (t : String) (d : JObj) :
    mapFields (make_embed_from_data t d) = mapBlockFields d := by
  unfold mapFields
  rw [make_embed_fields, List.filter_append, List.filter_append]
  rw [List.filter_eq_nil_iff.mpr, List.filter_eq_self.mpr, List.filter_eq_nil_iff.mpr,
    List.nil_append, List.append_nil]
  · intro f hf
    rw [mem_rawBlockFields_name hf]
    decide
  · intro f hf
    rw [mem_mapBlockFields_name hf]
    rfl
  · intro f hf
    have := mem_displayFields_name hf
    simp only [displayLabels, List.mem_cons, List.not_mem_nil, or_false] at this
    rcases this with h | h | h | h | h | h | h | h | h <;> simp [h]

theorem rawJsonFields_make (t : String) (d : JObj) :
    rawJsonFields (make_embed_from_data t d) = rawBlockFields d := by
  unfold rawJsonFields
  rw [make_embed_fields, List.filter_append, List.filter_append]
  rw [List.filter_eq_nil_iff.mpr, List.filter_eq_nil_iff.mpr, List.filter_eq_self.mpr,
    List.nil_append, List.nil_append]
  · intro f hf
    rw [mem_rawBlockFields_name hf]
    rfl
  · intro f hf
    rw [mem_mapBlockFields_name hf]
    decide
  · intro f hf
    have := mem_displayFields_name hf
    simp only [displayLabels, List.mem_cons, List.not_mem_nil, or_false] at this
    rcases this with h | h | h | h | h | h | h | h | h <;> simp [h]

theorem filterMap_displayEntry_eq (l : List (String × String)) (g : String → Option JVal) :
    (l.map (fun s => (s.1, g s.2))).filterMap displayEntry =
      (l.filter (fun s => truthyOpt (g s.2))).map
        (fun s => ⟨s.1, pyStrOpt (g s.2), true⟩) := by
  induction l with
  | nil => rfl
  | cons s rest ih =>
    cases h : truthyOpt (g s.2) <;> simp [displayEntry, h, ih]

/-- Claim C1: for every result mapping, the rendered card contains exactly
one display entry per field that is present and non-empty (Python-truthy;
on the string-valued fields of the provider schema this is exactly
present-and-non-empty) in the result, drawn from the fixed ordered field
list ip, hostname, city, region, country, coordinates, organization,
postal code, timezone — in that fixed order, with the label and the
stringified value of the row — and zero entries for fields that are empty
or absent. -/
theorem claim_C1_display_fields (t : String) (d : JObj) :
    displayOnly (make_embed_from_data t d) =
      (fieldSpecs.filter (fun s => truthyOpt (dictGet d s.2))).map
        (fun s => ⟨s.1, pyStrOpt (dictGet d s.2), true⟩) := by
  rw [displayOnly_make]
  have h : fieldPairs d = fieldSpecs.map (fun s => (s.1, dictGet d s.2)) := rfl
  unfold displayFields
  rw [h, filterMap_displayEntry_eq]

/-- Claim C6: the dispatcher sends the rendered card unmodified when its
length is at most 6000, and when it exceeds 6000 it re-renders exactly
once from the result with the key literally named "raw" removed and sends
that reduced card, with no second shrinking pass (the re-rendered card is
used as is, even if it still exceeds 6000). -/
theorem claim_C6_shrink (t : String) (d : JObj) :
    (embedLen (make_embed_from_data t d) ≤ 6000 →
      finalEmbed t d = make_embed_from_data t d)
    ∧ (6000 < embedLen (make_embed_from_data t d) →
      finalEmbed t d = make_embed_from_data t (dropRaw d)) := by
  constructor
  · intro h
    unfold finalEmbed
    rw [if_neg (by omega)]
  · intro h
    unfold finalEmbed
    rw [if_pos h]

/-- Claim C10: when the result has no key literally named "raw", removing
that key is the identity, so the oversize shrink pass re-renders the same
card and the 6000-character ceiling is never actually reduced by it. -/
theorem claim_C10_raw_removal (t : String) (d : JObj) (h : ∀ kv ∈ d, kv.1 ≠ "raw") :
    make_embed_from_data t (dropRaw d) = make_embed_from_data t d
    ∧ finalEmbed t d = make_embed_from_data t d := by
  have hd : dropRaw d = d := by
    unfold dropRaw
    rw [List.filter_eq_self]
    intro kv hkv
    simpa using h kv hkv
  constructor
  · rw [hd]
  · unfold finalEmbed
    rw [hd, ite_self]

/-- Claim C3 counterexample: the presenter performs no numeric validation
of the coordinate components.  For the result with loc = "a,b" the map
block is emitted with the non-numeric components substituted into both
URLs, refuting "the card contains a map block iff loc parses as exactly
two comma-separated numeric components". -/
theorem claim_C3_counterexample :
    mapFields (make_embed_from_data "1.2.3.4" [("loc", JVal.str "a,b")]) =
      [⟨"Map", mapFieldValue "a" "b", false⟩]
    ∧ isNumericString "a" = false ∧ isNumericString "b" = false := by
  refine ⟨?_, rfl, rfl⟩
  rfl

/-- Claim C3 amended: the card contains the map block — with the
OpenStreetMap zoom-8 URL and the generic web-map URL, both with the
substituted components — if and only if `loc` holds a string that splits
on "," into exactly two components (numeric or not; Python truthiness of
`loc` is subsumed, since an empty string yields a single-component split,
and a non-string `loc` makes the swallowed unpacking/attribute access
fail); in every other case the map block is omitted, and the presenter is
a total function, so no exception escapes it. -/
theorem claim_C3_amended (t : String) (d : JObj) :
    mapFields (make_embed_from_data t d) =
      (match dictGet d "loc" with
       | some (JVal.str s) =>
         (match pySplitComma s with
          | [lat, lon] => [⟨"Map", mapFieldValue lat lon, false⟩]
          | _ => [])
       | _ => []) :=
  mapFields_make t d

/-- Claim C2 counterexample: expiry of the 10-second total timeout raises
`asyncio.TimeoutError`, which `except aiohttp.ClientError` does not catch,
so a network-level failure in the spec's sense (DNS, reset, timeout) is
answered with the generic unexpected-error message, not the network-error
message. -/
theorem claim_C2_counterexample :
    isNetworkLevel (FetchExc.timeoutError "Connection timeout to host ipinfo.io") = true
    ∧ ipinfoCmdBody "8.8.8.8"
        (Except.error (FetchExc.timeoutError "Connection timeout to host ipinfo.io")) =
      [BotAction.typing, BotAction.fetchCall "8.8.8.8",
       BotAction.sendText (unexpectedErrMsg "Connection timeout to host ipinfo.io")]
    ∧ unexpectedErrMsg "Connection timeout to host ipinfo.io" ≠
        networkErrMsg "Connection timeout to host ipinfo.io" := by
  refine ⟨rfl, rfl, ?_⟩
  decide

/-- Claim C2 amended: on every failing fetch the dispatcher sends exactly
one reply chosen by the except chain and makes no further calls; DNS
failures and connection resets (`aiohttp.ClientError`) get the
network-error message with the transport error's detail, while expiry of
the fixed 10-second total timeout (`asyncio.TimeoutError`, which is not an
`aiohttp.ClientError`) gets the generic unexpected-error message with the
error's detail. -/
theorem claim_C2_amended (target : String) (e : FetchExc) (ht : target ≠ "") :
    ipinfoCmdBody target (Except.error e) =
      [BotAction.typing, BotAction.fetchCall target, BotAction.sendText (excReply e)]
    ∧ (isAiohttpClientError e = true → excReply e = networkErrMsg (excDetail e))
    ∧ (∀ dm, e = FetchExc.timeoutError dm → excReply e = unexpectedErrMsg dm) := by
  refine ⟨by simp [ipinfoCmdBody, ht], ?_, ?_⟩
  · intro h
    simp [excReply, h]
  · intro dm hdm
    subst hdm
    rfl

/-- Claim C5: a truthy bogon marker makes the dispatcher reply with the
fixed reserved-address notice, and a falsy bogon marker with a truthy
explicit error field makes it reply with that error's value embedded in
the fixed "ipinfo error:" message; in either case the reply is plain text
and the presenter is never invoked (no embed is sent). -/
theorem claim_C5_bogon_error (target : String) (d : JObj) (ht : target ≠ "") :
    (truthyOpt (dictGet d "bogon") = true →
      ipinfoCmdBody target (Except.ok d) =
        [BotAction.typing, BotAction.fetchCall target, BotAction.sendText bogonMsg])
    ∧ (truthyOpt (dictGet d "bogon") = false → truthyOpt (dictGet d "error") = true →
      ipinfoCmdBody target (Except.ok d) =
        [BotAction.typing, BotAction.fetchCall target,
         BotAction.sendText ("ipinfo error: " ++ pyStrOpt (dictGet d "error"))])
    ∧ (truthyOpt (dictGet d "bogon") || truthyOpt (dictGet d "error") →
      ∀ em : Embed, BotAction.sendEmbed em ∉ ipinfoCmdBody target (Except.ok d)) := by
  refine ⟨?_, ?_, ?_⟩
  · intro hb
    simp [ipinfoCmdBody, ht, hb]
  · intro hb he
    simp [ipinfoCmdBody, ht, hb, he]
  · intro hor em
    cases hb : truthyOpt (dictGet d "bogon")
    · cases he : truthyOpt (dictGet d "error")
      · rw [hb, he] at hor
        simp at hor
      · simp [ipinfoCmdBody, ht, hb, he]
    · simp [ipinfoCmdBody, ht, hb]

/-- Claim C8 counterexample: an invocation with the argument entirely
absent never reaches the handler body (discord.py raises
`MissingRequiredArgument` during argument parsing and `main.py` registers
no command error handler), so no reply at all — in particular no usage
hint — is sent, refuting "the dispatcher replies to the invoking user
with a usage hint". -/
theorem claim_C8_counterexample :
    invokeIpinfo [] (Except.ok [("ip", JVal.str "8.8.8.8")]) = []
    ∧ ∀ m, BotAction.sendText m ∉ invokeIpinfo [] (Except.ok [("ip", JVal.str "8.8.8.8")]) := by
  refine ⟨rfl, ?_⟩
  intro m h
  simp [invokeIpinfo] at h

/-- Claim C8 amended: an invocation without the required argument makes no
remote lookup call, but it also produces no reply (the platform layer
raises `MissingRequiredArgument` before the handler body runs and no error
handler is registered); the usage hint is sent — again with no remote
call — exactly when the handler body runs with an empty-string target
(reachable as a quoted empty argument). -/
theorem claim_C8_amended (outcome : Except FetchExc JObj) :
    invokeIpinfo [] outcome = []
    ∧ ipinfoCmdBody "" outcome = [BotAction.typing, BotAction.sendText usageMsg]
    ∧ (∀ tg, BotAction.fetchCall tg ∉ invokeIpinfo [] outcome
        ∧ BotAction.fetchCall tg ∉ ipinfoCmdBody "" outcome) := by
  refine ⟨rfl, rfl, ?_⟩
  intro tg
  constructor
  · simp [invokeIpinfo]
  · simp [ipinfoCmdBody]

theorem bot_token_of_firstTruthy (cfg : YamlConfig) (env : EnvVars) (s : String)
    (h : firstTruthy [cfg.tokenVal, env.botToken, env.discordToken] = some s) :
    bot_token cfg env = some s ∧ strTruthy (some s) = true := by
  unfold bot_token pyOr
  cases hc : strTruthy cfg.tokenVal
  · cases hb : strTruthy env.botToken
    · cases hd : strTruthy env.discordToken
      · simp [firstTruthy, hc, hb, hd] at h
      · simp only [firstTruthy, hc, hb, hd, Bool.false_eq_true, if_false] at h
        simp only [hc, hb, Bool.false_eq_true, if_false]
        exact ⟨h, h ▸ hd⟩
    · simp only [firstTruthy, hc, hb, Bool.false_eq_true, if_false, if_true] at h
      simp only [hc, hb, Bool.false_eq_true, if_false, if_true]
      exact ⟨h, h ▸ hb⟩
  · simp only [firstTruthy, hc, if_true] at h
    simp only [hc, if_true]
    exact ⟨h, h ▸ hc⟩

theorem bot_token_falsy (cfg : YamlConfig) (env : EnvVars)
    (h : firstTruthy [cfg.tokenVal, env.botToken, env.discordToken] = none) :
    strTruthy (bot_token cfg env) = false := by
  unfold bot_token pyOr
  cases hc : strTruthy cfg.tokenVal
  · cases hb : strTruthy env.botToken
    · cases hd : strTruthy env.discordToken
      · simp [hc, hb, hd]
      · simp only [firstTruthy, hc, hb, hd, Bool.false_eq_true, if_false, if_true] at h
        rw [h] at hd
        simp [strTruthy] at hd
    · simp only [firstTruthy, hc, hb, Bool.false_eq_true, if_false, if_true] at h
      rw [h] at hb
      simp [strTruthy] at hb
  · simp only [firstTruthy, hc, if_true] at h
    rw [h] at hc
    simp [strTruthy] at hc

/-- Claim C7: at startup the bot credential is resolved in the order
config-file value, then BOT_TOKEN, then DISCORD_TOKEN (the first truthy
candidate wins and the process starts with both commands registered); when
no truthy candidate exists the process exits with status 1 (non-zero) and
never reaches the command registrations, so no startup state with
registered commands exists. -/
theorem claim_C7_startup (cfg : YamlConfig) (env : EnvVars) :
    (∀ s : String,
      firstTruthy [cfg.tokenVal, env.botToken, env.discordToken] = some s →
        ∃ p itok, startupModel cfg env =
          StartupResult.running s p itok ["help", "ipinfo"])
    ∧ (firstTruthy [cfg.tokenVal, env.botToken, env.discordToken] = none →
        startupModel cfg env = StartupResult.exited 1 ∧
          ∀ s p itok cmds,
            startupModel cfg env ≠ StartupResult.running s p itok cmds) := by
  constructor
  · intro s hs
    obtain ⟨htok, hst⟩ := bot_token_of_firstTruthy cfg env s hs
    refine ⟨(pyOr cfg.pfxVal (pyOr env.botPfx (some "!"))).getD "",
      pyOr cfg.ipinfoVal (pyOr env.ipinfoToken env.ipinfoIoToken), ?_⟩
    simp only [startupModel]
    rw [htok, hst, if_pos rfl]
    rfl
  · intro hn
    have hst := bot_token_falsy cfg env hn
    have hexit : startupModel cfg env = StartupResult.exited 1 := by
      simp only [startupModel]
      rw [hst]
      simp
    refine ⟨hexit, ?_⟩
    intro s p itok cmds
    rw [hexit]
    intro hcontra
    cases hcontra

/-- Claim C9: the `ipinfo` command's cooldown is one invocation per 3
seconds per invoking user (discord.py `commands.cooldown(1, 3,
BucketType.user)`, a per-(command, user) bucket of size 1): starting from
an empty bucket cache, a second invocation by the same user within the
3-second window is suppressed and reported through the platform's
`CommandOnCooldown` notice carrying the remaining retry-after, so the two
invocations yield exactly one remote call; an invocation after the window
has elapsed yields a new remote call; and an interleaved invocation by a
different user is served from its own fresh bucket, unaffected by the
first user's window. -/
theorem claim_C9_cooldown (u v : Nat) (t1 t2 t3 : Rat)
    (h12 : t1 ≤ t2) (hwin : t2 ≤ t1 + 3) (h3 : t1 + 3 < t3) (huv : u ≠ v) :
    runCooldownSeq emptyCache [(u, t1), (u, t2)] =
      [InvokeResult.fetched, InvokeResult.cooldownNotice (3 - (t2 - t1))]
    ∧ runCooldownSeq emptyCache [(u, t1), (u, t3)] =
      [InvokeResult.fetched, InvokeResult.fetched]
    ∧ runCooldownSeq emptyCache [(u, t1), (v, t2)] =
      [InvokeResult.fetched, InvokeResult.fetched] := by
  have hnot : ¬(t1 + 3 < t2) := not_lt.mpr hwin
  have hvu : v ≠ u := Ne.symm huv
  refine ⟨?_, ?_, ?_⟩
  · simp [runCooldownSeq, cacheUpdate, cooldownUpdate, emptyCache, freshCooldown,
      ite_self, hnot]
  · simp [runCooldownSeq, cacheUpdate, cooldownUpdate, emptyCache, freshCooldown,
      ite_self, h3]
  · simp [runCooldownSeq, cacheUpdate, cooldownUpdate, emptyCache, freshCooldown,
      ite_self, hvu]

/-!
Round trip of the indented serialization through the JSON parser
(claim C4).
-/

theorem hexVal_hexDig_fin : ∀ n : Fin 16, hexVal (hexDig n.1) = some n.1 := by decide

theorem hexVal_hexDig (n : Nat) (h : n < 16) : hexVal (hexDig n) = some n :=
  hexVal_hexDig_fin ⟨n, h⟩

theorem parseStrBody_u (ha hb : Char) (a b : Nat) (rest : List Char)
    (h1 : hexVal ha = some a) (h2 : hexVal hb = some b) :
    parseStrBody ('\\' :: 'u' :: '0' :: '0' :: ha :: hb :: rest) =
      (parseStrBody rest).map (fun p => (Char.ofNat (a * 16 + b) :: p.1, p.2)) := by
  simp only [parseStrBody]
  rw [show hexVal '0' = some 0 from rfl, h1, h2]
  norm_num
  simp +decide

theorem parseStrBody_escChar (c : Char) (rest : List Char) :
    parseStrBody (escChar c ++ rest) =
      (parseStrBody rest).map (fun p => (c :: p.1, p.2)) := by
  by_cases h1 : c = '"'
  · subst h1
    simp +decide only [escChar, List.cons_append, List.nil_append]
    conv_lhs => rw [parseStrBody.eq_def]
    simp +decide
  by_cases h2 : c = '\\'
  · subst h2
    simp +decide only [escChar, List.cons_append, List.nil_append]
    conv_lhs => rw [parseStrBody.eq_def]
    simp +decide
  by_cases h3 : c = '\n'
  · subst h3
    simp +decide only [escChar, List.cons_append, List.nil_append]
    conv_lhs => rw [parseStrBody.eq_def]
    simp +decide
  by_cases h4 : c = '\r'
  · subst h4
    simp +decide only [escChar, List.cons_append, List.nil_append]
    conv_lhs => rw [parseStrBody.eq_def]
    simp +decide
  by_cases h5 : c = '\t'
  · subst h5
    simp +decide only [escChar, List.cons_append, List.nil_append]
    conv_lhs => rw [parseStrBody.eq_def]
    simp +decide
  by_cases h6 : c = '\x08'
  · subst h6
    simp +decide only [escChar, List.cons_append, List.nil_append]
    conv_lhs => rw [parseStrBody.eq_def]
    simp +decide
  by_cases h7 : c = '\x0c'
  · subst h7
    simp +decide only [escChar, List.cons_append, List.nil_append]
    conv_lhs => rw [parseStrBody.eq_def]
    simp +decide
  by_cases h8 : c.toNat < 32
  · rw [escChar]
    rw [if_neg h1, if_neg h2, if_neg h3, if_neg h4, if_neg h5, if_neg h6, if_neg h7,
      if_pos h8]
    show parseStrBody ('\\' :: 'u' :: '0' :: '0' :: hexDig (c.toNat / 16) ::
      hexDig (c.toNat % 16) :: rest) = _
    rw [parseStrBody_u (hexDig (c.toNat / 16)) (hexDig (c.toNat % 16))
      (c.toNat / 16) (c.toNat % 16) rest
      (hexVal_hexDig (c.toNat / 16) (by omega)) (hexVal_hexDig (c.toNat % 16) (by omega))]
    rw [show c.toNat / 16 * 16 + c.toNat % 16 = c.toNat from by omega, Char.ofNat_toNat]
  · rw [escChar]
    rw [if_neg h1, if_neg h2, if_neg h3, if_neg h4, if_neg h5, if_neg h6, if_neg h7,
      if_neg h8]
    show parseStrBody (c :: rest) = _
    conv_lhs => rw [parseStrBody.eq_def]
    simp [h1, h2]

theorem parseStrBody_escString (s rest : List Char) :
    parseStrBody (escString s ++ ('"' :: rest)) = some (s, rest) := by
  induction s with
  | nil =>
    show parseStrBody ('"' :: rest) = _
    conv_lhs => rw [parseStrBody.eq_def]
    simp
  | cons c cs ih =>
    show parseStrBody ((escChar c ++ escString cs) ++ ('"' :: rest)) = _
    rw [List.append_assoc, parseStrBody_escChar, ih]
    rfl

theorem parseJString_escString (k rest : List Char) :
    parseJString ('"' :: (escString k ++ ('"' :: rest))) = some (k, rest) := by
  conv_lhs => rw [parseJString.eq_def]
  simp [parseStrBody_escString]

theorem skipWs_cons_ws (c : Char) (h : isWsChar c = true) (l : List Char) :
    skipWs (c :: l) = skipWs l := by
  conv_lhs => rw [skipWs.eq_def]
  simp [h]

theorem skipWs_cons_not (c : Char) (h : isWsChar c = false) (l : List Char) :
    skipWs (c :: l) = c :: l := by
  conv_lhs => rw [skipWs.eq_def]
  simp [h]

theorem skipWs_dumpVal (v : JVal) (x : List Char) :
    skipWs (dumpVal v ++ x) = dumpVal v ++ x := by
  cases v with
  | str s =>
    simp only [dumpVal, List.cons_append]
    exact skipWs_cons_not '"' (by decide) _
  | bool b =>
    cases b <;>
      (simp only [dumpVal, List.cons_append]
       exact skipWs_cons_not _ (by decide) _)
  | null =>
    simp only [dumpVal, List.cons_append]
    exact skipWs_cons_not _ (by decide) _

theorem skipWs_dumpTail_cons (a : String × JVal) (l : JObj) (x : List Char) :
    skipWs (dumpTail (a :: l) ++ x) = dumpTail (a :: l) ++ x := by
  simp only [dumpTail, dumpEntry, List.cons_append]
  exact skipWs_cons_not '"' (by decide) _

theorem parseJVal_dumpVal (v : JVal) (rest : List Char) :
    parseJVal (dumpVal v ++ rest) = some (v, rest) := by
  cases v with
  | str s =>
    simp only [dumpVal, List.cons_append, List.append_assoc, List.nil_append]
    conv_lhs => rw [parseJVal.eq_def]
    simp +decide [parseStrBody_escString]
  | bool b =>
    cases b <;>
      (simp only [dumpVal, List.cons_append]
       conv_lhs => rw [parseJVal.eq_def]
       simp +decide)
  | null =>
    simp only [dumpVal, List.cons_append]
    conv_lhs => rw [parseJVal.eq_def]
    simp +decide

theorem parseEntryList_dumpTail (d : JObj) :
    ∀ (fuel : Nat) (rest : List Char), d ≠ [] → d.length ≤ fuel →
      parseEntryList fuel (dumpTail d ++ rest) = some (d, rest) := by
  induction d with
  | nil =>
    intro fuel rest h
    exact absurd rfl h
  | cons kv ds ih =>
    intro fuel rest _ hlen
    obtain ⟨k, v⟩ := kv
    cases fuel with
    | zero => simp at hlen
    | succ f =>
      conv_lhs => rw [parseEntryList.eq_def]
      cases ds with
      | nil =>
        simp only [dumpTail, dumpEntry, List.cons_append, List.append_assoc,
          List.nil_append]
        rw [parseJString_escString]
        simp +decide only [skipWs_cons_not, skipWs_cons_ws, skipWs_dumpVal,
          parseJVal_dumpVal, isWsChar]
        simp +decide
      | cons d0 ds2 =>
        have hne : (d0 :: ds2 : JObj) ≠ [] := by simp
        have hlen2 : (d0 :: ds2 : JObj).length ≤ f := by
          simp only [List.length_cons] at hlen ⊢
          omega
        simp only [dumpTail, dumpEntry, List.cons_append, List.append_assoc,
          List.nil_append]
        rw [parseJString_escString]
        simp +decide only [skipWs_cons_not, skipWs_cons_ws, skipWs_dumpVal,
          isWsChar, parseJVal_dumpVal]
        simp only [if_true]
        have hrec := ih f rest hne hlen2
        simp only [dumpTail, dumpEntry, List.cons_append, List.append_assoc,
          List.nil_append] at hrec
        rw [hrec]
        rfl

theorem length_le_dumpTail (d : JObj) : d.length ≤ (dumpTail d).length := by
  induction d with
  | nil => simp [dumpTail]
  | cons kv ds ih =>
    cases ds with
    | nil => simp [dumpTail, dumpEntry]
    | cons d0 ds2 =>
      simp only [dumpTail, dumpEntry, List.length_append, List.length_cons] at ih ⊢
      omega

/-- The indented serialization parses back to the original mapping. -/
theorem loads_dumps (d : JObj) : loads (dumps d) = some d := by
  cases d with
  | nil => rfl
  | cons kv ds =>
    unfold loads dumps
    simp only []
    have h0 := length_le_dumpTail (kv :: ds)
    have hne : (kv :: ds : JObj) ≠ [] := by simp
    have hfuel : (kv :: ds : JObj).length ≤
        ('\x7b' :: '\n' :: ' ' :: ' ' :: dumpTail (kv :: ds) : List Char).length + 1 := by
      simp only [List.length_cons] at h0 ⊢
      omega
    have hrec := parseEntryList_dumpTail (kv :: ds)
      (('\x7b' :: '\n' :: ' ' :: ' ' :: dumpTail (kv :: ds) : List Char).length + 1)
      [] hne hfuel
    rw [List.append_nil] at hrec
    have hsk : skipWs (dumpTail (kv :: ds)) = dumpTail (kv :: ds) := by
      have := skipWs_dumpTail_cons kv ds []
      rwa [List.append_nil] at this
    conv_lhs => rw [parseJObj.eq_def]
    rw [skipWs_cons_not '\x7b' (by decide)]
    simp +decide only [skipWs_cons_ws, isWsChar]
    rw [hsk]
    simp only [dumpTail, dumpEntry, List.cons_append, List.append_assoc,
      List.nil_append] at hrec ⊢
    rw [if_true, if_neg (show ¬(('"' : Char) = '\x7d') from by decide)]
    rw [hrec]
    simp [skipWs]

/-- Claim C4: when the indented JSON serialization of the result is at
least 1024 characters long the card contains no raw-JSON block, and when
it is under 1024 characters the card contains exactly one raw-JSON block,
whose content is the serialization inside a ```json code fence, and
parsing that JSON content yields back the original mapping (round trip). -/
theorem claim_C4_raw_roundtrip (t : String) (d : JObj) :
    (1024 ≤ (dumps d).length → rawJsonFields (make_embed_from_data t d) = [])
    ∧ ((dumps d).length < 1024 →
      rawJsonFields (make_embed_from_data t d) =
        [⟨"Raw JSON", "```json\n" ++ dumps d ++ "\n```", false⟩]
      ∧ loads (dumps d) = some d) := by
  constructor
  · intro h
    rw [rawJsonFields_make]
    unfold rawBlockFields
    rw [if_neg (by omega)]
  · intro h
    refine ⟨?_, loads_dumps d⟩
    rw [rawJsonFields_make]
    unfold rawBlockFields
    rw [if_pos h]

theorem bigOrg_length : bigOrg.length = 6100 := by
  show (List.replicate 6100 'a').length = 6100
  rw [List.length_replicate]

/-- Any field of a card bounds the card's total length from below. -/
theorem embedLen_ge_field (e : Embed) (f : EmbedField) (hf : f ∈ e.fields) :
    f.value.length ≤ embedLen e := by
  unfold embedLen
  have hmem : f.name.length + f.value.length ∈
      e.fields.map (fun g => g.name.length + g.value.length) :=
    List.mem_map_of_mem _ hf
  have hle := List.single_le_sum (l := e.fields.map (fun g => g.name.length + g.value.length))
    (by intro x hx; omega) _ hmem
  omega

theorem org_mem_big :
    (⟨"Organization", bigOrg, true⟩ : EmbedField) ∈
      (make_embed_from_data "x" [("org", JVal.str bigOrg)]).fields := by
  rw [make_embed_fields]
  apply List.mem_append_left
  rw [show displayFields [("org", JVal.str bigOrg)] =
    [⟨"Organization", bigOrg, true⟩] from rfl]
  exact List.mem_singleton.mpr rfl

theorem big_embed_over :
    6000 < embedLen (make_embed_from_data "x" [("org", JVal.str bigOrg)]) := by
  have h := embedLen_ge_field _ _ org_mem_big
  have hl : (⟨"Organization", bigOrg, true⟩ : EmbedField).value.length = 6100 := bigOrg_length
  omega

theorem claim_C2_witness :
    ipinfoCmdBody "8.8.8.8"
        (Except.error (FetchExc.connectionResetError "Connection reset by peer")) =
      [BotAction.typing, BotAction.fetchCall "8.8.8.8",
       BotAction.sendText (excReply (FetchExc.connectionResetError "Connection reset by peer"))]
    ∧ excReply (FetchExc.connectionResetError "Connection reset by peer") =
        networkErrMsg "Connection reset by peer" :=
  ⟨(claim_C2_amended "8.8.8.8" (FetchExc.connectionResetError "Connection reset by peer")
      (by decide)).1,
   (claim_C2_amended "8.8.8.8" (FetchExc.connectionResetError "Connection reset by peer")
      (by decide)).2.1 (by decide)⟩

set_option maxRecDepth 40000 in
theorem claim_C4_witness :
    ((dumps exSmall).length < 1024
      ∧ rawJsonFields (make_embed_from_data "8.8.8.8" exSmall) =
          [⟨"Raw JSON", "```json\n" ++ dumps exSmall ++ "\n```", false⟩]
      ∧ loads (dumps exSmall) = some exSmall)
    ∧ (1024 ≤ (dumps longD).length
      ∧ rawJsonFields (make_embed_from_data "h" longD) = []) :=
  ⟨⟨by decide, (claim_C4_raw_roundtrip "8.8.8.8" exSmall).2 (by decide)⟩,
   ⟨by decide, (claim_C4_raw_roundtrip "h" longD).1 (by decide)⟩⟩

theorem claim_C5_witness :
    ipinfoCmdBody "8.8.8.8" (Except.ok [("bogon", JVal.bool true)]) =
      [BotAction.typing, BotAction.fetchCall "8.8.8.8", BotAction.sendText bogonMsg]
    ∧ ipinfoCmdBody "8.8.8.8" (Except.ok [("error", JVal.str "Wrong ip")]) =
      [BotAction.typing, BotAction.fetchCall "8.8.8.8",
       BotAction.sendText ("ipinfo error: " ++
         pyStrOpt (dictGet [("error", JVal.str "Wrong ip")] "error"))] :=
  ⟨(claim_C5_bogon_error "8.8.8.8" [("bogon", JVal.bool true)] (by decide)).1 (by decide),
   (claim_C5_bogon_error "8.8.8.8" [("error", JVal.str "Wrong ip")] (by decide)).2.1
     (by decide) (by decide)⟩

theorem claim_C6_witness :
    (embedLen (make_embed_from_data "8.8.8.8" exSmall) ≤ 6000
      ∧ finalEmbed "8.8.8.8" exSmall = make_embed_from_data "8.8.8.8" exSmall)
    ∧ (6000 < embedLen (make_embed_from_data "x" [("org", JVal.str bigOrg)])
      ∧ finalEmbed "x" [("org", JVal.str bigOrg)] =
          make_embed_from_data "x" (dropRaw [("org", JVal.str bigOrg)])) :=
  ⟨⟨by decide, (claim_C6_shrink "8.8.8.8" exSmall).1 (by decide)⟩,
   ⟨big_embed_over, (claim_C6_shrink "x" [("org", JVal.str bigOrg)]).2 big_embed_over⟩⟩

theorem claim_C7_witness :
    (startupModel noCfg envAllUnset = StartupResult.exited 1
      ∧ ∀ s p itok cmds,
          startupModel noCfg envAllUnset ≠ StartupResult.running s p itok cmds)
    ∧ ∃ p itok, startupModel cfgWithTok envAllUnset =
        StartupResult.running "config-token" p itok ["help", "ipinfo"] :=
  ⟨(claim_C7_startup noCfg envAllUnset).2 rfl,
   (claim_C7_startup cfgWithTok envAllUnset).1 "config-token" rfl⟩

theorem claim_C9_witness :
    runCooldownSeq emptyCache [(1, 0), (1, 2)] =
      [InvokeResult.fetched, InvokeResult.cooldownNotice (3 - (2 - 0))]
    ∧ runCooldownSeq emptyCache [(1, 0), (1, 4)] =
      [InvokeResult.fetched, InvokeResult.fetched]
    ∧ runCooldownSeq emptyCache [(1, 0), (2, 2)] =
      [InvokeResult.fetched, InvokeResult.fetched] :=
  claim_C9_cooldown 1 2 0 2 4 (by norm_num) (by norm_num) (by norm_num) (by decide)

theorem claim_C10_witness :
    finalEmbed "8.8.8.8" exSmall = make_embed_from_data "8.8.8.8" exSmall :=
  (claim_C10_raw_removal "8.8.8.8" exSmall (by decide)).2
